import Mathlib

/-!
Shallow embedding of the Pootle editor query pipeline and related view code
(`pootle_store/views.py`, `accounts/adapter.py`, `core/helpers.py`,
`virtualfolder/management/commands/add_vfolders.py`).

Django querysets are modelled as Lean lists of translation-unit records;
queryset `filter` becomes `List.filter`, queryset `|` becomes a
duplicate-avoiding append, `distinct()` becomes `List.dedup`, and
`order_by` becomes `List.mergeSort` with the corresponding comparator.
External collaborators (the user model, datetime parsing, the search form
machinery) are passed in as explicit function parameters.
-/

namespace Pootle

/-- Python `str.lower()`, modelled as ASCII case folding character by
character (`Char.toLower` lowercases exactly the letters A-Z). -/
def pyLower (s : String) : String := String.mk (s.toList.map Char.toLower)

/-- Whether `pre` is a leading segment of `l` (helper for substring tests). -/
def leadsList (pre l : List Char) : Bool :=
  match pre, l with
  | [], _ => true
  | _ :: _, [] => false
  | a :: as, b :: bs => a == b && leadsList as bs

/-- Whether `needle` occurs as a contiguous sublist of `hay`. -/
def subList (needle hay : List Char) : Bool :=
  match hay with
  | [] => leadsList needle []
  | _ :: bs => leadsList needle hay || subList needle bs

/-- Django `field__contains=needle`: case-sensitive substring test. -/
def strContains (hay needle : String) : Bool := subList needle.toList hay.toList

/-- Django `field__icontains=needle`: case-insensitive substring test. -/
def strIContains (hay needle : String) : Bool :=
  strContains (pyLower hay) (pyLower needle)

/-- Python `str.split()` with no argument: split on runs of whitespace,
dropping empty tokens. -/
def pySplitWs (s : String) : List String :=
  (s.split Char.isWhitespace).filter (fun w => w ≠ "")

/-- State of a suggestion (`SuggestionStates` in `pootle_store.models`). -/
inductive SuggState where
  | pending
  | accepted
  | rejected
deriving DecidableEq, Repr

/-- A suggestion row related to a unit. -/
structure Suggestion where
  id : Nat
  state : SuggState
  user : Nat
  creation_time : Int
deriving DecidableEq, Repr

/-- A submission row related to a unit. -/
structure SubmissionRec where
  submitter : Nat
  type : Int
  creation_time : Int
deriving DecidableEq, Repr

/-- A quality-check row related to a unit. -/
structure QualityCheck where
  name : String
  false_positive : Bool
deriving DecidableEq, Repr

/-- Unit states, from `pootle_store/util.py`. -/
def UNTRANSLATED : Int := 0

/-- FUZZY unit state, from `pootle_store/util.py`. -/
def FUZZY : Int := 50

/-- TRANSLATED unit state, from `pootle_store/util.py`. -/
def TRANSLATED : Int := 200

/-- Edit submission types (`SubmissionTypes.EDIT_TYPES` in
`pootle_statistics.models`: NORMAL and SYSTEM). -/
def EDIT_TYPES : List Int := [1, 5]

/-- A translation unit row together with its related rows, i.e. the data
reachable from a `Unit` object that the reviewed queries touch. -/
structure TUnit where
  id : Nat
  state : Int
  source_f : String
  target_f : String
  translator_comment : String
  developer_comment : String
  locations : String
  submitted_on : Option Int
  submitted_by : Option Nat
  suggestions : List Suggestion
  submissions : List SubmissionRec
  qualitychecks : List QualityCheck
  vfolder_priorities : List Nat
  store_pootle_path : String
deriving DecidableEq, Repr

/-- Django queryset `|` (OR combination): membership is the disjunction of
memberships; the model appends the right operand minus duplicates. -/
def qunion (a b : List TUnit) : List TUnit :=
  a ++ b.filter (fun u => !(a.contains u))

/-- A validated search form's cleaned data (`make_search_form` result). -/
structure SearchForm where
  search : String
  sfields : List String
  soptions : List String

/-- Repeatedly narrow `qs` by one `icontains` filter per word, as the
per-field loops of `get_search_query` do. -/
def filterWords (field : TUnit → String) (words : List String)
    (qs : List TUnit) : List TUnit :=
  words.foldl (fun acc w => acc.filter (fun u => strIContains (field u) w)) qs

/-- Embedding of `get_search_query` (views.py:112-146): word-by-word
case-insensitive search over the selected fields. -/
def get_search_query (form : SearchForm) (units_queryset : List TUnit) :
    List TUnit :=
  let words := pySplitWs form.search
  let result : List TUnit := []
  let result :=
    if form.sfields.contains "source" then
      qunion result (filterWords (fun u => u.source_f) words units_queryset)
    else result
  let result :=
    if form.sfields.contains "target" then
      qunion result (filterWords (fun u => u.target_f) words units_queryset)
    else result
  let result :=
    if form.sfields.contains "notes" then
      qunion
        (qunion result
          (filterWords (fun u => u.translator_comment) words units_queryset))
        (filterWords (fun u => u.developer_comment) words units_queryset)
    else result
  let result :=
    if form.sfields.contains "locations" then
      qunion result (filterWords (fun u => u.locations) words units_queryset)
    else result
  result

/-- Embedding of `get_search_exact_query` (views.py:148-175): whole-phrase
case-sensitive search over the selected fields. -/
def get_search_exact_query (form : SearchForm) (units_queryset : List TUnit) :
    List TUnit :=
  let phrase := form.search
  let result : List TUnit := []
  let result :=
    if form.sfields.contains "source" then
      qunion result (units_queryset.filter (fun u => strContains u.source_f phrase))
    else result
  let result :=
    if form.sfields.contains "target" then
      qunion result (units_queryset.filter (fun u => strContains u.target_f phrase))
    else result
  let result :=
    if form.sfields.contains "notes" then
      qunion
        (qunion result
          (units_queryset.filter (fun u => strContains u.translator_comment phrase)))
        (units_queryset.filter (fun u => strContains u.developer_comment phrase))
    else result
  let result :=
    if form.sfields.contains "locations" then
      qunion result (units_queryset.filter (fun u => strContains u.locations phrase))
    else result
  result

/-- Embedding of `get_search_step_query` (views.py:178-184). -/
def get_search_step_query (form : SearchForm) (units_queryset : List TUnit) :
    List TUnit :=
  if form.soptions.contains "exact" then
    get_search_exact_query form units_queryset
  else
    get_search_query form units_queryset

/-- The GET parameters consulted by `get_step_query` (views.py:187-328). -/
structure StepGET where
  filter : Option String
  user : Option String
  modifiedSince : Option String
  month : Option String
  sort : Option String
  checks : Option String
  search : Option String
  sfields : Option String

/-- External collaborators of `get_step_query`: the requesting profile, the
user model lookup, `parse_datetime`, `get_date_interval`, and the search
form machinery (`make_search_form` + validation + cleaned data; `none`
models a form that fails validation). -/
structure Externals where
  profile : Nat
  users : String → Option Nat
  parseDatetime : String → Option Int
  dateInterval : String → Int × Int
  searchForm : StepGET → Option SearchForm

/-- The effective user (views.py:197-203): the named user when the lookup
succeeds, the requesting profile otherwise. -/
def userOf (ext : Externals) (g : StepGET) : Nat :=
  match g.user with
  | none => ext.profile
  | some username =>
    match ext.users username with
    | some u => u
    | none => ext.profile

/-- The per-unit sort key used by the `priority` sort: the SQL sub-query
`SELECT COALESCE(MAX(virtualfolder_virtualfolder.priority), 1) ...`
(views.py:288-294), i.e. the maximum priority over the unit's virtual
folders, defaulting to 1 when the unit belongs to none. -/
def unitPriority (u : TUnit) : Nat :=
  match u.vfolder_priorities with
  | [] => 1
  | p :: ps => ps.foldl max p

/-- SQL `MAX(suggestion.creation_time)` over the unit's suggestions. -/
def maxSuggTime (u : TUnit) : Option Int :=
  match u.suggestions.map (fun s => s.creation_time) with
  | [] => none
  | t :: ts => some (ts.foldl max t)

/-- SQL `MAX(submission.creation_time)` over the unit's submissions. -/
def maxSubTime (u : TUnit) : Option Int :=
  match u.submissions.map (fun s => s.creation_time) with
  | [] => none
  | t :: ts => some (ts.foldl max t)

/-- Ordering on nullable sort keys (SQL NULLs sort first). -/
def optLe (a b : Option Int) : Bool :=
  match a, b with
  | none, _ => true
  | some _, none => false
  | some x, some y => x ≤ y

/-- The `ALLOWED_SORTS` lookup (views.py:55-69):
`ALLOWED_SORTS[sort_on].get(sort_by_param, None)`. -/
def allowedSorts (sort_on : String) (p : String) : Option String :=
  if sort_on = "units" then
    if p = "priority" then some "priority"
    else if p = "oldest" then some "submitted_on"
    else if p = "newest" then some "-submitted_on"
    else none
  else if sort_on = "suggestions" then
    if p = "oldest" then some "suggestion__creation_time"
    else if p = "newest" then some "-suggestion__creation_time"
    else none
  else if sort_on = "submissions" then
    if p = "oldest" then some "submission__creation_time"
    else if p = "newest" then some "-submission__creation_time"
    else none
  else none

/-- Plain `order_by(field)` for the simply-sorted unit fields
(views.py:296). -/
def orderByField (field : String) (qs : List TUnit) : List TUnit :=
  if field = "submitted_on" then
    qs.mergeSort (fun a b => optLe a.submitted_on b.submitted_on)
  else if field = "-submitted_on" then
    qs.mergeSort (fun a b => optLe b.submitted_on a.submitted_on)
  else qs

/-- Value of the `Max(max_field)` annotation used by the suggestion and
submission sorts (views.py:309-311). -/
def maxFieldValue (field : String) (u : TUnit) : Option Int :=
  if field = "suggestion__creation_time" then maxSuggTime u
  else if field = "submission__creation_time" then maxSubTime u
  else none

/-- `annotate(sort_by_field=Max(max_field)).order_by(sort_order)`
(views.py:297-311), including the leading-`-` sign stripping. -/
def annotatedSort (sort_by : String) (qs : List TUnit) : List TUnit :=
  if sort_by.startsWith "-" then
    let max_field := sort_by.drop 1
    qs.mergeSort (fun a b => optLe (maxFieldValue max_field b) (maxFieldValue max_field a))
  else
    qs.mergeSort (fun a b => optLe (maxFieldValue sort_by a) (maxFieldValue sort_by b))

/-- The `unit_filter` dispatch (views.py:205-259) building `match_queryset`
from `units_queryset`; an unrecognised non-empty filter leaves the initial
`units_queryset.none()`. -/
def filterStage (unit_filter : String) (user : Nat) (checksGET : Option String)
    (units_queryset : List TUnit) : List TUnit :=
  if unit_filter = "all" then units_queryset
  else if unit_filter = "translated" then
    units_queryset.filter (fun u => u.state == TRANSLATED)
  else if unit_filter = "untranslated" then
    units_queryset.filter (fun u => u.state == UNTRANSLATED)
  else if unit_filter = "fuzzy" then
    units_queryset.filter (fun u => u.state == FUZZY)
  else if unit_filter = "incomplete" then
    units_queryset.filter (fun u => u.state == UNTRANSLATED || u.state == FUZZY)
  else if unit_filter = "suggestions" then
    (units_queryset.filter (fun u =>
      u.suggestions.any (fun s => s.state == SuggState.pending))).dedup
  else if unit_filter = "my-suggestions" ∨ unit_filter = "user-suggestions" then
    (units_queryset.filter (fun u =>
      u.suggestions.any (fun s =>
        s.state == SuggState.pending && s.user == user))).dedup
  else if unit_filter = "user-suggestions-accepted" then
    (units_queryset.filter (fun u =>
      u.suggestions.any (fun s =>
        s.state == SuggState.accepted && s.user == user))).dedup
  else if unit_filter = "user-suggestions-rejected" then
    (units_queryset.filter (fun u =>
      u.suggestions.any (fun s =>
        s.state == SuggState.rejected && s.user == user))).dedup
  else if unit_filter = "my-submissions" ∨ unit_filter = "user-submissions" then
    (units_queryset.filter (fun u =>
      u.submissions.any (fun s =>
        s.submitter == user && EDIT_TYPES.contains s.type))).dedup
  else if unit_filter = "my-submissions-overwritten" ∨
      unit_filter = "user-submissions-overwritten" then
    ((units_queryset.filter (fun u =>
      u.submissions.any (fun s =>
        s.submitter == user && EDIT_TYPES.contains s.type))).filter
      (fun u => !(u.submitted_by == some user))).dedup
  else if unit_filter = "checks" then
    match checksGET with
    | some checksParam =>
      let checks := checksParam.splitOn ","
      if checks.length != 0 then
        (units_queryset.filter (fun u =>
          u.qualitychecks.any (fun qc =>
            !qc.false_positive && checks.contains qc.name))).dedup
      else []
    | none => []
  else []

/-- The `modified-since` narrowing (views.py:261-266). -/
def modifiedStage (ext : Externals) (g : StepGET) (qs : List TUnit) :
    List TUnit :=
  match g.modifiedSince with
  | none => qs
  | some ms =>
    match ext.parseDatetime ms with
    | none => qs
    | some dt =>
      (qs.filter (fun u =>
        match u.submitted_on with
        | none => false
        | some t => dt < t)).dedup

/-- The `month` narrowing (views.py:268-273). -/
def monthStage (ext : Externals) (g : StepGET) (qs : List TUnit) :
    List TUnit :=
  match g.month with
  | none => qs
  | some m =>
    let se := ext.dateInterval m
    (qs.filter (fun u =>
      match u.submitted_on with
      | none => false
      | some t => se.1 ≤ t && t ≤ se.2)).dedup

/-- Which `ALLOWED_SORTS` table applies, as set alongside the filter
dispatch (views.py:195, 229, 245). -/
def sortOnOf (unit_filter : String) : String :=
  if unit_filter = "my-suggestions" ∨ unit_filter = "user-suggestions" then
    "suggestions"
  else if unit_filter = "my-submissions" ∨ unit_filter = "user-submissions" then
    "submissions"
  else "units"

/-- The sorting step (views.py:275-311). -/
def sortStage (sort_on : String) (sortParam : Option String)
    (qs : List TUnit) : List TUnit :=
  match sortParam with
  | none => qs
  | some p =>
    match allowedSorts sort_on p with
    | none => qs
    | some sort_by =>
      if sort_on = "units" then
        if sort_by = "priority" then
          qs.mergeSort (fun a b => unitPriority b ≤ unitPriority a)
        else orderByField sort_by qs
      else annotatedSort sort_by qs

/-- The search step (views.py:315-326): applied only when both `search` and
`sfields` are present and the search form validates. -/
def searchStage (ext : Externals) (g : StepGET) (qs : List TUnit) :
    List TUnit :=
  if g.search.isSome && g.sfields.isSome then
    match ext.searchForm g with
    | some form => get_search_step_query form qs
    | none => qs
  else qs

/-- Embedding of `get_step_query` (views.py:187-328). -/
def get_step_query (ext : Externals) (g : StepGET)
    (units_queryset : List TUnit) : List TUnit :=
  let units_queryset :=
    match g.filter with
    | none => units_queryset
    | some unit_filter =>
      if unit_filter = "" then units_queryset
      else
        sortStage (sortOnOf unit_filter) g.sort
          (monthStage ext g (modifiedStage ext g
            (filterStage unit_filter (userOf ext g) g.checks units_queryset)))
  searchStage ext g units_queryset

/-- HTTP error raised by a view. -/
inductive HttpError where
  | http404
deriving DecidableEq, Repr

/-- Python `list.index`, returning the position of the first occurrence
(`None` models the `ValueError` branch). -/
def pyIndex (uid : Nat) : List Nat → Option Nat
  | [] => none
  | x :: xs => if x = uid then some 0 else (pyIndex uid xs).map (fun i => i + 1)

/-- Python slice `l[b:e]` for `0 ≤ b ≤ e`. -/
def pySlice (l : List Nat) (b e : Nat) : List Nat := (l.drop b).take (e - b)

/-- The uid-window computation of the initial `get_units` request
(views.py:474-485), starting from the parsed `uids` list and the ordered
`uid_list` of the filtered result set.  With exactly one uid the window is
`uid_list[max(index - chunk_size, 0):min(index + chunk_size + 1, len)]`
around the uid's position, a missing uid raises `Http404`, and otherwise
the first `2 * chunk_size` ids are taken. -/
def get_units_window (uid_list : List Nat) (uids : List Nat)
    (chunk_size : Nat) : Except HttpError (List Nat) :=
  if uids.length = 1 then
    let uid := uids.headD 0
    match pyIndex uid uid_list with
    | some index =>
      Except.ok (pySlice uid_list (index - chunk_size)
        (min (index + chunk_size + 1) uid_list.length))
    | none => Except.error HttpError.http404
  else
    Except.ok (uid_list.take (2 * chunk_size))

/-- The unit fields touched by the comment endpoints. -/
structure CommentUnit where
  commented_by : Option Nat
  commented_on : Option Int
deriving DecidableEq, Repr

/-- Observable outcome of a comment endpoint: HTTP status, whether the JSON
body carries an error message under `msg`, and the unit instance passed to
`form.save()` when the form validated. -/
structure CommentResult where
  status : Nat
  has_msg : Bool
  saved_unit : Option CommentUnit
deriving DecidableEq, Repr

/-- Embedding of `delete_comment` (views.py:639-660): blank the comment
fields on the instance, then save on a valid form (status 200) or answer
400 with a `msg`.  `form_is_valid` stands for the external
`unit_comment_form_factory` validation outcome. -/
def delete_comment (form_is_valid : Bool) (unit : CommentUnit) :
    CommentResult :=
  let unit := { unit with commented_by := none, commented_on := none }
  if form_is_valid then ⟨200, false, some unit⟩
  else ⟨400, true, none⟩

/-- Embedding of `save_comment` (views.py:663-695): stamp the commenting
user and time on the instance, then save on a valid form (status 200) or
answer 400 with a `msg`. -/
def save_comment (form_is_valid : Bool) (profile : Nat) (now : Int)
    (unit : CommentUnit) : CommentResult :=
  let unit := { unit with commented_by := some profile, commented_on := some now }
  if form_is_valid then ⟨200, false, some unit⟩
  else ⟨400, true, none⟩

/-- JSON body of the suggestion-review endpoints: the unit id (`udbid`),
the suggestion id (`sugid`), and whether a review action was performed
(the `user_score` branch ran). -/
structure SuggReviewJson where
  udbid : Nat
  sugid : Nat
  reviewed : Bool
deriving DecidableEq, Repr

/-- Embedding of `reject_suggestion` (views.py:942-962): with the `reject`
POST flag, look the suggestion up (`Http404` when absent) and reject it;
without the flag, just echo the ids. -/
def reject_suggestion (unit : TUnit) (suggid : Nat) (postReject : Bool) :
    Except HttpError SuggReviewJson :=
  if postReject then
    match unit.suggestions.find? (fun s => s.id == suggid) with
    | some _ => Except.ok ⟨unit.id, suggid, true⟩
    | none => Except.error HttpError.http404
  else Except.ok ⟨unit.id, suggid, false⟩

/-- Embedding of `accept_suggestion` (views.py:965-992): with the `accept`
POST flag, look the suggestion up (`Http404` when absent) and accept it;
without the flag, just echo the ids. -/
def accept_suggestion (unit : TUnit) (suggid : Nat) (postAccept : Bool) :
    Except HttpError SuggReviewJson :=
  if postAccept then
    match unit.suggestions.find? (fun s => s.id == suggid) with
    | some _ => Except.ok ⟨unit.id, suggid, true⟩
    | none => Except.error HttpError.http404
  else Except.ok ⟨unit.id, suggid, false⟩

/-- Truthiness of the `redirect_to` argument (a missing or empty URL is
falsy in Python). -/
def redirectTruthy (r : Option String) : Bool :=
  match r with
  | none => false
  | some s => !s.isEmpty

/-- Embedding of `PootleAccountAdapter.ajax_response` (adapter.py:24-37).
The local variable `status` is modelled by an `Option Nat` that starts
unassigned; reading it while unassigned is the Python `UnboundLocalError`,
rendered as the `Except.error` branch.  `form` is `none` for a `None`
argument and `some valid` for a form with validation outcome `valid`; the
`List String` lists the keys of the JSON payload. -/
def ajax_response (redirect_to : Option String) (form : Option Bool) :
    Except String (Nat × List String) :=
  let status : Option Nat := none
  let data : List String := []
  let sd :=
    if redirectTruthy redirect_to then (some 200, data ++ ["location"])
    else (status, data)
  let sd :=
    match form with
    | none => sd
    | some valid =>
      if valid then (some 200, sd.2)
      else (some 400, sd.2 ++ ["errors"])
  match sd.1 with
  | some s => Except.ok (s, sd.2)
  | none => Except.error "UnboundLocalError"

/-- `EXPORT_VIEW_QUERY_LIMIT` (helpers.py:37). -/
def EXPORT_VIEW_QUERY_LIMIT : Nat := 10000

/-- `itertools.groupby` over a key function: consecutive runs of equal
keys become one group each. -/
def pyGroupby (key : TUnit → String) : List TUnit → List (String × List TUnit)
  | [] => []
  | x :: xs =>
    match pyGroupby key xs with
    | [] => [(key x, [x])]
    | (k, g) :: rest =>
      if key x = k then (key x, x :: g) :: rest
      else (key x, [x]) :: (k, g) :: rest

/-- The export-view context fields that `get_export_view_context`
(helpers.py:117-147) computes from the unit queryset: the two optional
truncation keys and the grouped unit list. -/
structure ExportCtx where
  unit_total_count : Option Nat
  displayed_unit_count : Option Nat
  unit_groups : List (String × List TUnit)

/-- Embedding of `get_export_view_context` (helpers.py:117-147): run the
step query, count, truncate to `EXPORT_VIEW_QUERY_LIMIT` (adding the two
count keys) only when the count exceeds the limit, and group the displayed
units by store path. -/
def get_export_view_context (ext : Externals) (g : StepGET)
    (units_qs : List TUnit) : ExportCtx :=
  let units := get_step_query ext g units_qs
  let unit_total_count := units.length
  if unit_total_count > EXPORT_VIEW_QUERY_LIMIT then
    { unit_total_count := some unit_total_count
      displayed_unit_count := some EXPORT_VIEW_QUERY_LIMIT
      unit_groups :=
        pyGroupby (fun u => u.store_pootle_path)
          (units.take EXPORT_VIEW_QUERY_LIMIT) }
  else
    { unit_total_count := none
      displayed_unit_count := none
      unit_groups := pyGroupby (fun u => u.store_pootle_path) units }

/-- One item of the JSON input to the `add_vfolders` command. -/
structure VFolderItem where
  name : String
  location : String
  files : Option (List String)
  priority : Option Nat
  is_browsable : Option Bool
  description : Option String
deriving DecidableEq, Repr

/-- A stored virtual folder row.  Modelled from the spec: the
`VirtualFolder` model itself lives outside the reviewed sources ("Virtual
folder: a named, priority-ranked grouping of units"); only the fields the
command reads and writes are kept, keyed by name and location. -/
structure VFolder where
  name : String
  location : String
  filter_rules : String
  priority : Nat
  is_browsable : Bool
  description : String
deriving DecidableEq, Repr

/-- Construction of a fresh `VirtualFolder(**vfolder_item)`.  Modelled from
the spec: the external model supplies defaults for absent keys; `save()`
validation is taken to succeed. -/
def vfolderOfItem (name : String) (location : String) (filter_rules : String)
    (item : VFolderItem) : VFolder :=
  ⟨name, location, filter_rules, item.priority.getD 1,
    item.is_browsable.getD true, item.description.getD ""⟩

/-- The `filter_rules` string computed for an input item
(add_vfolders.py:61-67): the comma-joined `files` list, or empty. -/
def filterRulesOf (item : VFolderItem) : String :=
  match item.files with
  | some fs => String.intercalate "," fs
  | none => ""

/-- Processing of one input item by `Command.handle`
(add_vfolders.py:58-128): lowercase the name, flatten `files` into
`filter_rules`, then create the folder when no folder with that name and
location exists, and update the existing folder's mutable fields
otherwise. -/
def processItem (st : List VFolder) (item : VFolderItem) : List VFolder :=
  let name := pyLower item.name
  let filter_rules := filterRulesOf item
  match st.find? (fun v => v.name == name && v.location == item.location) with
  | none => st ++ [vfolderOfItem name item.location filter_rules item]
  | some v =>
    let v2 : VFolder :=
      ⟨v.name, v.location, filter_rules, item.priority.getD v.priority,
        item.is_browsable.getD v.is_browsable,
        item.description.getD v.description⟩
    st.map (fun w =>
      if w.name == name && w.location == item.location then v2 else w)

/-- Embedding of the `add_vfolders` `Command.handle` loop
(add_vfolders.py:58-128) over the decoded JSON items, acting on the stored
folder list. -/
def add_vfolders (items : List VFolderItem) (st : List VFolder) :
    List VFolder :=
  items.foldl processItem st

/-- A fully concrete sample unit, used to instantiate universally
quantified theorems on concrete data. -/
def sampleUnit : TUnit :=
  ⟨1, 0, "", "", "", "", "", none, none, [], [], [], [], ""⟩

/-- A sample unit that belongs to two virtual folders. -/
def sampleUnitVf : TUnit :=
  { sampleUnit with vfolder_priorities := [5, 3] }

/-- Concrete external collaborators: empty user table, failing datetime
parser, zero date interval, invalid search form. -/
def sampleExt : Externals :=
  ⟨0, fun _ => none, fun _ => none, fun _ => (0, 0), fun _ => none⟩

/-- A sample `add_vfolders` input item with a mixed-case name. -/
def itemNews1 : VFolderItem := ⟨"News", "/proj", none, none, none, none⟩

/-- A second sample item: same name up to case, same location. -/
def itemNews2 : VFolderItem :=
  ⟨"NEWS", "/proj", some ["a.po"], some 7, none, some "d"⟩

/-- The folder that processing `itemNews1` then `itemNews2` produces. -/
def vfNews : VFolder := ⟨"news", "/proj", "a.po", 7, true, "d"⟩

/-! ## Claim-side formulations (refinement targets, written from the
claim text rather than from the code) -/

/-- The selected search fields of a unit, per the claim: source, target,
locations, and, when `notes` is selected, either the translator comment or
the developer comment. -/
def claimSelectedFields (form : SearchForm) (u : TUnit) : List String :=
  (if form.sfields.contains "source" then [u.source_f] else []) ++
  (if form.sfields.contains "target" then [u.target_f] else []) ++
  (if form.sfields.contains "notes" then
    [u.translator_comment, u.developer_comment] else []) ++
  (if form.sfields.contains "locations" then [u.locations] else [])

/-- Claim predicate, default mode: some selected field case-insensitively
contains every whitespace-separated word of the search string. -/
def claimWordMatch (form : SearchForm) (u : TUnit) : Bool :=
  (claimSelectedFields form u).any (fun f =>
    (pySplitWs form.search).all (fun w => strIContains f w))

/-- Claim predicate, exact mode: some selected field contains the entire
search phrase as a contiguous substring. -/
def claimExactMatch (form : SearchForm) (u : TUnit) : Bool :=
  (claimSelectedFields form u).any (fun f => strContains f form.search)


/-- The filter values recognised by the dispatch in `get_step_query`. -/
def recognisedFilters : List String :=
  ["all", "translated", "untranslated", "fuzzy", "incomplete", "suggestions",
   "my-suggestions", "user-suggestions", "user-suggestions-accepted",
   "user-suggestions-rejected", "my-submissions", "user-submissions",
   "my-submissions-overwritten", "user-submissions-overwritten", "checks"]


/-! ## Helper lemmas -/

theorem mem_qunion {u : TUnit} {a b : List TUnit} :
    u ∈ qunion a b ↔ u ∈ a ∨ u ∈ b := by
  simp only [qunion, List.mem_append, List.mem_filter, Bool.not_eq_true',
    ← Bool.not_eq_true, List.elem_iff]
  by_cases h : u ∈ a <;> simp [h]

theorem mem_filterWords {field : TUnit → String} {words : List String}
    {qs : List TUnit} {u : TUnit} :
    u ∈ filterWords field words qs ↔
      u ∈ qs ∧ ∀ w ∈ words, strIContains (field u) w = true := by
  induction words generalizing qs with
  | nil => simp [filterWords]
  | cons w ws ih =>
    have : filterWords field (w :: ws) qs =
        filterWords field ws (qs.filter (fun u => strIContains (field u) w)) :=
      rfl
    rw [this, ih]
    simp only [List.mem_filter, List.mem_cons]
    constructor
    · rintro ⟨⟨hq, hw⟩, hws⟩
      exact ⟨hq, fun x hx => by rcases hx with rfl | hx; exact hw; exact hws x hx⟩
    · rintro ⟨hq, hall⟩
      exact ⟨⟨hq, hall w (Or.inl rfl)⟩, fun x hx => hall x (Or.inr hx)⟩

/-- Membership characterisation of the word-mode search result. -/
theorem mem_get_search_query {form : SearchForm} {qs : List TUnit} {u : TUnit} :
    u ∈ get_search_query form qs ↔
      u ∈ qs ∧
        ((form.sfields.contains "source" = true ∧
            ∀ w ∈ pySplitWs form.search, strIContains u.source_f w = true) ∨
         (form.sfields.contains "target" = true ∧
            ∀ w ∈ pySplitWs form.search, strIContains u.target_f w = true) ∨
         (form.sfields.contains "notes" = true ∧
            ((∀ w ∈ pySplitWs form.search,
                strIContains u.translator_comment w = true) ∨
             (∀ w ∈ pySplitWs form.search,
                strIContains u.developer_comment w = true))) ∨
         (form.sfields.contains "locations" = true ∧
            ∀ w ∈ pySplitWs form.search, strIContains u.locations w = true)) := by
  unfold get_search_query
  cases hsrc : form.sfields.contains "source" <;>
    cases htgt : form.sfields.contains "target" <;>
      cases hnot : form.sfields.contains "notes" <;>
        cases hloc : form.sfields.contains "locations" <;>
          simp [hsrc, htgt, hnot, hloc, mem_qunion, mem_filterWords] <;>
            tauto

/-- Membership characterisation of the exact-mode search result. -/
theorem mem_get_search_exact_query {form : SearchForm} {qs : List TUnit}
    {u : TUnit} :
    u ∈ get_search_exact_query form qs ↔
      u ∈ qs ∧
        ((form.sfields.contains "source" = true ∧
            strContains u.source_f form.search = true) ∨
         (form.sfields.contains "target" = true ∧
            strContains u.target_f form.search = true) ∨
         (form.sfields.contains "notes" = true ∧
            (strContains u.translator_comment form.search = true ∨
             strContains u.developer_comment form.search = true)) ∨
         (form.sfields.contains "locations" = true ∧
            strContains u.locations form.search = true)) := by
  unfold get_search_exact_query
  cases hsrc : form.sfields.contains "source" <;>
    cases htgt : form.sfields.contains "target" <;>
      cases hnot : form.sfields.contains "notes" <;>
        cases hloc : form.sfields.contains "locations" <;>
          simp [hsrc, htgt, hnot, hloc, mem_qunion, List.mem_filter] <;>
            tauto

/-- C2: `get_search_step_query` returns exactly the units of the input
collection matching the claim's search predicate — every word of the
search string case-insensitively in some selected field by default, the
whole phrase as a contiguous substring when the `exact` option is set. -/
theorem get_search_step_query_exact_claim (form : SearchForm)
    (qs : List TUnit) (u : TUnit) :
    u ∈ get_search_step_query form qs ↔
      u ∈ qs ∧
        (if form.soptions.contains "exact" then claimExactMatch form u
         else claimWordMatch form u) = true := by
  unfold get_search_step_query
  cases hex : form.soptions.contains "exact" with
  | false =>
    rw [if_neg (by simp [hex]), if_neg (by simp [hex])]
    rw [mem_get_search_query]
    unfold claimWordMatch claimSelectedFields
    cases hsrc : form.sfields.contains "source" <;>
      cases htgt : form.sfields.contains "target" <;>
        cases hnot : form.sfields.contains "notes" <;>
          cases hloc : form.sfields.contains "locations" <;>
            simp [hsrc, htgt, hnot, hloc, List.all_eq_true] <;> tauto
  | true =>
    rw [if_pos (by simp [hex]), if_pos (by simp [hex])]
    rw [mem_get_search_exact_query]
    unfold claimExactMatch claimSelectedFields
    cases hsrc : form.sfields.contains "source" <;>
      cases htgt : form.sfields.contains "target" <;>
        cases hnot : form.sfields.contains "notes" <;>
          cases hloc : form.sfields.contains "locations" <;>
            simp [hsrc, htgt, hnot, hloc] <;> tauto

/-- C4: `get_step_query` with filter `translated` / `untranslated` /
`fuzzy` keeps exactly the units in the corresponding state, and with
`incomplete` exactly the union of the UNTRANSLATED and FUZZY sets. -/
theorem get_step_query_state_filters (ext : Externals) (qs : List TUnit) :
    (∀ u, u ∈ get_step_query ext
        ⟨some "translated", none, none, none, none, none, none, none⟩ qs ↔
      u ∈ qs ∧ u.state = TRANSLATED) ∧
    (∀ u, u ∈ get_step_query ext
        ⟨some "untranslated", none, none, none, none, none, none, none⟩ qs ↔
      u ∈ qs ∧ u.state = UNTRANSLATED) ∧
    (∀ u, u ∈ get_step_query ext
        ⟨some "fuzzy", none, none, none, none, none, none, none⟩ qs ↔
      u ∈ qs ∧ u.state = FUZZY) ∧
    (∀ u, u ∈ get_step_query ext
        ⟨some "incomplete", none, none, none, none, none, none, none⟩ qs ↔
      u ∈ qs ∧ (u.state = UNTRANSLATED ∨ u.state = FUZZY)) := by
  refine ⟨fun u => ?_, fun u => ?_, fun u => ?_, fun u => ?_⟩ <;>
    · show u ∈ List.filter _ qs ↔ _
      simp [List.mem_filter]

theorem le_foldl_max (a : Nat) (l : List Nat) : a ≤ l.foldl max a := by
  induction l generalizing a with
  | nil => simp
  | cons b bs ih => exact le_trans (Nat.le_max_left a b) (ih (max a b))

theorem mem_le_foldl_max {x : Nat} {l : List Nat} (a : Nat) (hx : x ∈ l) :
    x ≤ l.foldl max a := by
  induction l generalizing a with
  | nil => cases hx
  | cons b bs ih =>
    rcases List.mem_cons.1 hx with rfl | h
    · exact le_trans (Nat.le_max_right a x) (le_foldl_max _ _)
    · exact ih (max a b) h

theorem foldl_max_mem (a : Nat) (l : List Nat) : l.foldl max a ∈ a :: l := by
  induction l generalizing a with
  | nil => simp
  | cons b bs ih =>
    have h := ih (max a b)
    rcases List.mem_cons.1 h with h1 | h1
    · rcases max_choice a b with h2 | h2 <;>
        · rw [List.foldl_cons, h1, h2]; simp
    · rw [List.foldl_cons]
      exact List.mem_cons.2 (Or.inr (List.mem_cons.2 (Or.inr h1)))

/-- C3: with a plain unit filter and sort parameter `priority`,
`get_step_query` returns a permutation of the input ordered by descending
per-unit priority, where the per-unit priority is an upper bound of the
unit's virtual-folder priorities, is attained by one of them whenever the
unit belongs to a virtual folder, and is 1 for a unit in no virtual
folder. -/
theorem get_step_query_priority_sort (ext : Externals) (qs : List TUnit) :
    (get_step_query ext
      ⟨some "all", none, none, none, some "priority", none, none, none⟩
      qs).Perm qs ∧
    List.Sorted (fun a b => unitPriority b ≤ unitPriority a)
      (get_step_query ext
        ⟨some "all", none, none, none, some "priority", none, none, none⟩
        qs) ∧
    (∀ u : TUnit, u.vfolder_priorities = [] → unitPriority u = 1) ∧
    (∀ (u : TUnit) (p : Nat), p ∈ u.vfolder_priorities →
      p ≤ unitPriority u) ∧
    (∀ u : TUnit, u.vfolder_priorities ≠ [] →
      unitPriority u ∈ u.vfolder_priorities) := by
  refine ⟨?_, ?_, ?_, ?_, ?_⟩
  · show (List.mergeSort qs _).Perm qs
    exact List.mergeSort_perm qs _
  · show List.Sorted _ (List.mergeSort qs _)
    have h := @List.sorted_mergeSort TUnit
      (fun a b : TUnit => decide (unitPriority b ≤ unitPriority a))
      (fun a b c hab hbc => by
        simp only [decide_eq_true_iff] at *
        exact le_trans hbc hab)
      (fun a b => by
        simp only [Bool.or_eq_true, decide_eq_true_iff]
        exact Nat.le_total (unitPriority b) (unitPriority a))
      qs
    exact h.imp (fun hab => by simpa using hab)
  · intro u h
    unfold unitPriority
    rw [h]
  · intro u p hp
    unfold unitPriority
    cases hl : u.vfolder_priorities with
    | nil => rw [hl] at hp; cases hp
    | cons q qs2 =>
      rw [hl] at hp
      rcases List.mem_cons.1 hp with rfl | h
      · exact le_foldl_max _ _
      · exact mem_le_foldl_max _ h
  · intro u h
    unfold unitPriority
    cases hl : u.vfolder_priorities with
    | nil => exact absurd hl h
    | cons q qs2 => exact foldl_max_mem q qs2

/-! ## Narrowing lemmas for the pipeline stages -/

theorem get_search_step_query_subset {form : SearchForm} {qs : List TUnit}
    {u : TUnit} (h : u ∈ get_search_step_query form qs) : u ∈ qs := by
  unfold get_search_step_query at h
  split at h
  · exact (mem_get_search_exact_query.1 h).1
  · exact (mem_get_search_query.1 h).1

theorem filterStage_subset {f : String} {user : Nat} {cg : Option String}
    {qs : List TUnit} {u : TUnit} (h : u ∈ filterStage f user cg qs) :
    u ∈ qs := by
  unfold filterStage at h
  by_cases c1 : f = "all"
  · rw [if_pos c1] at h; exact h
  rw [if_neg c1] at h
  by_cases c2 : f = "translated"
  · rw [if_pos c2] at h; exact List.mem_of_mem_filter h
  rw [if_neg c2] at h
  by_cases c3 : f = "untranslated"
  · rw [if_pos c3] at h; exact List.mem_of_mem_filter h
  rw [if_neg c3] at h
  by_cases c4 : f = "fuzzy"
  · rw [if_pos c4] at h; exact List.mem_of_mem_filter h
  rw [if_neg c4] at h
  by_cases c5 : f = "incomplete"
  · rw [if_pos c5] at h; exact List.mem_of_mem_filter h
  rw [if_neg c5] at h
  by_cases c6 : f = "suggestions"
  · rw [if_pos c6] at h; exact List.mem_of_mem_filter (List.mem_dedup.1 h)
  rw [if_neg c6] at h
  by_cases c7 : f = "my-suggestions" ∨ f = "user-suggestions"
  · rw [if_pos c7] at h; exact List.mem_of_mem_filter (List.mem_dedup.1 h)
  rw [if_neg c7] at h
  by_cases c8 : f = "user-suggestions-accepted"
  · rw [if_pos c8] at h; exact List.mem_of_mem_filter (List.mem_dedup.1 h)
  rw [if_neg c8] at h
  by_cases c9 : f = "user-suggestions-rejected"
  · rw [if_pos c9] at h; exact List.mem_of_mem_filter (List.mem_dedup.1 h)
  rw [if_neg c9] at h
  by_cases c10 : f = "my-submissions" ∨ f = "user-submissions"
  · rw [if_pos c10] at h; exact List.mem_of_mem_filter (List.mem_dedup.1 h)
  rw [if_neg c10] at h
  by_cases c11 : f = "my-submissions-overwritten" ∨
      f = "user-submissions-overwritten"
  · rw [if_pos c11] at h
    exact List.mem_of_mem_filter (List.mem_of_mem_filter (List.mem_dedup.1 h))
  rw [if_neg c11] at h
  by_cases c12 : f = "checks"
  · rw [if_pos c12] at h
    cases cg with
    | none => cases h
    | some checksParam =>
      dsimp only at h
      split at h
      · exact List.mem_of_mem_filter (List.mem_dedup.1 h)
      · cases h
  rw [if_neg c12] at h
  cases h

theorem modifiedStage_subset {ext : Externals} {g : StepGET}
    {qs : List TUnit} {u : TUnit} (h : u ∈ modifiedStage ext g qs) :
    u ∈ qs := by
  unfold modifiedStage at h
  repeat' split at h
  all_goals first
    | exact h
    | exact List.mem_of_mem_filter (List.mem_dedup.1 h)

theorem monthStage_subset {ext : Externals} {g : StepGET}
    {qs : List TUnit} {u : TUnit} (h : u ∈ monthStage ext g qs) :
    u ∈ qs := by
  unfold monthStage at h
  repeat' split at h
  all_goals first
    | exact h
    | exact List.mem_of_mem_filter (List.mem_dedup.1 h)

theorem sortStage_subset {so : String} {sp : Option String}
    {qs : List TUnit} {u : TUnit} (h : u ∈ sortStage so sp qs) : u ∈ qs := by
  unfold sortStage orderByField annotatedSort at h
  repeat' split at h
  all_goals first
    | exact h
    | exact (List.mergeSort_perm qs _).subset h

theorem searchStage_subset {ext : Externals} {g : StepGET}
    {qs : List TUnit} {u : TUnit} (h : u ∈ searchStage ext g qs) : u ∈ qs := by
  unfold searchStage at h
  repeat' split at h
  all_goals first
    | exact h
    | exact get_search_step_query_subset h

theorem filterStage_unrecognised {f : String} {user : Nat}
    {cg : Option String} {qs : List TUnit} (hf : f ∉ recognisedFilters) :
    filterStage f user cg qs = [] := by
  simp only [recognisedFilters, List.mem_cons, List.not_mem_nil, or_false,
    not_or] at hf
  obtain ⟨h1, h2, h3, h4, h5, h6, h7, h8, h9, h10, h11, h12, h13, h14, h15⟩ :=
    hf
  unfold filterStage
  simp [h1, h2, h3, h4, h5, h6, h7, h8, h9, h10, h11, h12, h13, h14, h15]

theorem modifiedStage_nil (ext : Externals) (g : StepGET) :
    modifiedStage ext g [] = [] := by
  unfold modifiedStage
  repeat' split
  all_goals simp

theorem monthStage_nil (ext : Externals) (g : StepGET) :
    monthStage ext g [] = [] := by
  unfold monthStage
  repeat' split
  all_goals simp

theorem sortStage_nil (so : String) (sp : Option String) :
    sortStage so sp [] = [] := by
  unfold sortStage orderByField annotatedSort
  repeat' first
    | split
    | dsimp only
  all_goals simp [List.mergeSort_nil]

theorem get_search_step_query_nil (form : SearchForm) :
    get_search_step_query form [] = [] := by
  rw [List.eq_nil_iff_forall_not_mem]
  intro u hu
  cases get_search_step_query_subset hu

theorem searchStage_nil (ext : Externals) (g : StepGET) :
    searchStage ext g [] = [] := by
  unfold searchStage
  repeat' split
  all_goals first
    | rfl
    | apply get_search_step_query_nil

/-- C5: the whole pipeline only ever narrows — every unit of the result is
a unit of the input collection, for every combination of GET parameters
and every behaviour of the external collaborators — and a non-empty filter
value outside the recognised set yields the empty collection. -/
theorem get_step_query_narrows (ext : Externals) (g : StepGET)
    (qs : List TUnit) :
    (∀ u ∈ get_step_query ext g qs, u ∈ qs) ∧
    (∀ f, g.filter = some f → f ≠ "" → f ∉ recognisedFilters →
      get_step_query ext g qs = []) := by
  obtain ⟨gf, gu, gms, gmo, gso, gch, gse, gsf⟩ := g
  constructor
  · intro u h
    unfold get_step_query at h
    replace h := searchStage_subset h
    cases gf with
    | none => exact h
    | some f =>
      dsimp only at h
      split at h
      · exact h
      · exact filterStage_subset (modifiedStage_subset (monthStage_subset
          (sortStage_subset h)))
  · intro f hf hne hnr
    cases hf
    unfold get_step_query
    dsimp only
    rw [if_neg hne, filterStage_unrecognised hnr, modifiedStage_nil,
      monthStage_nil, sortStage_nil, searchStage_nil]

theorem pyIndex_some {uid : Nat} {l : List Nat} {i : Nat}
    (h : pyIndex uid l = some i) : ∃ hi : i < l.length, l[i] = uid := by
  induction l generalizing i with
  | nil => cases h
  | cons x xs ih =>
    unfold pyIndex at h
    split at h
    · injection h with h0
      subst h0
      exact ⟨Nat.succ_pos _, by simpa using (by assumption : x = uid)⟩
    · rw [Option.map_eq_some'] at h
      obtain ⟨j, hj, hji⟩ := h
      obtain ⟨hlt, hget⟩ := ih hj
      subst hji
      exact ⟨Nat.succ_lt_succ hlt, by simpa using hget⟩

theorem pyIndex_eq_none {uid : Nat} {l : List Nat} (h : uid ∉ l) :
    pyIndex uid l = none := by
  induction l with
  | nil => rfl
  | cons x xs ih =>
    simp only [List.mem_cons, not_or] at h
    unfold pyIndex
    rw [if_neg (Ne.symm h.1), ih h.2]
    rfl

/-- C1: for an initial `get_units` request with exactly one parsed uid, the
returned id window is exactly the contiguous slice of the ordered id list
from `max(index - chunk_size, 0)` to `min(index + chunk_size + 1, length)`
around the uid's position, hence contains the uid and has at most
`2 * chunk_size + 1` elements; a uid absent from the list raises Http404;
and with zero or several uids the window is the first `2 * chunk_size`
ids. -/
theorem get_units_window_claim (uid_list : List Nat) (uids : List Nat)
    (chunk_size : Nat) :
    (∀ uid index, uids = [uid] → pyIndex uid uid_list = some index →
      get_units_window uid_list uids chunk_size =
        Except.ok (pySlice uid_list (index - chunk_size)
          (min (index + chunk_size + 1) uid_list.length)) ∧
      uid ∈ pySlice uid_list (index - chunk_size)
          (min (index + chunk_size + 1) uid_list.length) ∧
      (pySlice uid_list (index - chunk_size)
          (min (index + chunk_size + 1) uid_list.length)).length ≤
        2 * chunk_size + 1) ∧
    (∀ uid, uids = [uid] → uid ∉ uid_list →
      get_units_window uid_list uids chunk_size =
        Except.error HttpError.http404) ∧
    (uids.length ≠ 1 →
      get_units_window uid_list uids chunk_size =
        Except.ok (uid_list.take (2 * chunk_size))) := by
  refine ⟨?_, ?_, ?_⟩
  · intro uid index hu hidx
    subst hu
    obtain ⟨hlt, hget⟩ := pyIndex_some hidx
    refine ⟨by simp [get_units_window, hidx], ?_, ?_⟩
    · rw [List.mem_iff_getElem]
      have hb : index - chunk_size ≤ index := Nat.sub_le _ _
      have hii : index - (index - chunk_size) <
          (pySlice uid_list (index - chunk_size)
            (min (index + chunk_size + 1) uid_list.length)).length := by
        simp only [pySlice, List.length_take, List.length_drop]
        omega
      refine ⟨index - (index - chunk_size), hii, ?_⟩
      unfold pySlice at hii ⊢
      rw [List.getElem_take, List.getElem_drop]
      have heq : index - chunk_size + (index - (index - chunk_size)) = index := by
        omega
      simp only [heq]
      exact hget
    · simp only [pySlice, List.length_take, List.length_drop]
      omega
  · intro uid hu hmem
    subst hu
    simp [get_units_window, pyIndex_eq_none hmem]
  · intro hne
    unfold get_units_window
    rw [if_neg hne]

/-- C6: the comment endpoints answer 400 with an error `msg` exactly when
the comment form fails validation and 200 otherwise, and a valid DELETE
saves the unit with `commented_by` and `commented_on` cleared. -/
theorem comment_endpoints_claim (v : Bool) (unit : CommentUnit)
    (profile : Nat) (now : Int) :
    ((delete_comment v unit).status = 400 ∧
        (delete_comment v unit).has_msg = true ↔ v = false) ∧
    ((delete_comment v unit).status = 200 ↔ v = true) ∧
    ((save_comment v profile now unit).status = 400 ∧
        (save_comment v profile now unit).has_msg = true ↔ v = false) ∧
    ((save_comment v profile now unit).status = 200 ↔ v = true) ∧
    (delete_comment true unit).saved_unit =
      some { commented_by := none, commented_on := none } := by
  cases v <;> simp [delete_comment, save_comment]

/-- C7: with the review POST flag set, `reject_suggestion` and
`accept_suggestion` answer Http404 exactly when the unit has no suggestion
with the given id; with the flag absent they perform no review action and
answer 200 with the unit id and suggestion id. -/
theorem suggestion_review_claim (unit : TUnit) (suggid : Nat) :
    (reject_suggestion unit suggid true = Except.error HttpError.http404 ↔
      ¬ ∃ s ∈ unit.suggestions, s.id = suggid) ∧
    (accept_suggestion unit suggid true = Except.error HttpError.http404 ↔
      ¬ ∃ s ∈ unit.suggestions, s.id = suggid) ∧
    reject_suggestion unit suggid false =
      Except.ok ⟨unit.id, suggid, false⟩ ∧
    accept_suggestion unit suggid false =
      Except.ok ⟨unit.id, suggid, false⟩ := by
  refine ⟨?_, ?_, rfl, rfl⟩ <;>
  · first
      | unfold reject_suggestion
      | unfold accept_suggestion
    cases hf : unit.suggestions.find? (fun s => s.id == suggid) with
    | none =>
      rw [List.find?_eq_none] at hf
      simp only [if_true, hf]
      constructor
      · intro _
        rintro ⟨s, hs, hid⟩
        exact absurd (by simpa using hid) (by simpa using hf s hs)
      · intro _
        trivial
    | some s =>
      have hmem := List.mem_of_find?_eq_some hf
      have hid : s.id = suggid := by simpa using List.find?_some hf
      simp only [if_true, hf]
      constructor
      · intro hcontra
        cases hcontra
      · intro hno
        exact absurd ⟨s, hmem, hid⟩ hno

/-- C8: `PootleAccountAdapter.ajax_response` hits the unassigned local
variable `status` (and so raises) exactly when `redirect_to` is falsy and
`form` is `None`; in every other case a status is assigned. -/
theorem ajax_response_claim (r : Option String) (f : Option Bool) :
    ajax_response r f = Except.error "UnboundLocalError" ↔
      redirectTruthy r = false ∧ f = none := by
  rcases f with _ | v
  · cases hr : redirectTruthy r <;> simp [ajax_response, hr]
  · cases v <;> cases hr : redirectTruthy r <;> simp [ajax_response, hr]

theorem pyGroupby_join (key : TUnit → String) (l : List TUnit) :
    ((pyGroupby key l).map Prod.snd).flatten = l := by
  induction l with
  | nil => rfl
  | cons x xs ih =>
    unfold pyGroupby
    cases hg : pyGroupby key xs with
    | nil =>
      rw [hg] at ih
      simp only [List.map_nil, List.flatten_nil] at ih
      simp [← ih]
    | cons p rest =>
      obtain ⟨k, grp⟩ := p
      rw [hg] at ih
      dsimp only
      by_cases hk : key x = k
      · rw [if_pos hk]
        simp only [List.map_cons, List.flatten_cons] at ih ⊢
        rw [← ih]
        simp
      · rw [if_neg hk]
        simp only [List.map_cons, List.flatten_cons] at ih ⊢
        rw [← ih]
        simp

/-- C9: `get_export_view_context` never displays more than
`EXPORT_VIEW_QUERY_LIMIT` units: beyond the limit the unit groups hold
exactly the first 10000 filtered units and both truncation keys are set,
otherwise all filtered units are displayed and both keys are absent. -/
theorem get_export_view_context_limit_claim (ext : Externals) (g : StepGET)
    (qs : List TUnit) :
    (((get_export_view_context ext g qs).unit_groups.map Prod.snd).flatten =
      if (get_step_query ext g qs).length > EXPORT_VIEW_QUERY_LIMIT then
        (get_step_query ext g qs).take EXPORT_VIEW_QUERY_LIMIT
      else get_step_query ext g qs) ∧
    ((get_export_view_context ext g qs).unit_total_count =
      if (get_step_query ext g qs).length > EXPORT_VIEW_QUERY_LIMIT then
        some (get_step_query ext g qs).length
      else none) ∧
    ((get_export_view_context ext g qs).displayed_unit_count =
      if (get_step_query ext g qs).length > EXPORT_VIEW_QUERY_LIMIT then
        some EXPORT_VIEW_QUERY_LIMIT
      else none) ∧
    ((get_export_view_context ext g qs).unit_groups.map Prod.snd).flatten.length
      ≤ EXPORT_VIEW_QUERY_LIMIT := by
  by_cases hn : (get_step_query ext g qs).length > EXPORT_VIEW_QUERY_LIMIT
  · rw [if_pos hn, if_pos hn, if_pos hn]
    unfold get_export_view_context
    rw [if_pos hn]
    refine ⟨pyGroupby_join _ _, rfl, rfl, ?_⟩
    rw [pyGroupby_join, List.length_take]
    omega
  · rw [if_neg hn, if_neg hn, if_neg hn]
    unfold get_export_view_context
    rw [if_neg hn]
    refine ⟨pyGroupby_join _ _, rfl, rfl, ?_⟩
    rw [pyGroupby_join]
    omega

theorem toLower_not_upper (c : Char) : (Char.toLower c).isUpper = false := by
  unfold Char.toLower
  dsimp only
  split
  · rename_i h
    obtain ⟨h1, h2⟩ := h
    set n := c.toNat with hn
    interval_cases n <;> decide
  · rename_i h
    simp only [Char.isUpper]
    rw [Bool.and_eq_false_iff]
    by_cases h1 : 65 ≤ c.toNat
    · right
      by_cases h2 : c.toNat ≤ 90
      · exact absurd ⟨h1, h2⟩ h
      · simp only [decide_eq_false_iff_not]
        intro hle
        exact h2 hle
    · left
      simp only [decide_eq_false_iff_not]
      intro hle
      exact h1 hle

theorem pyLower_no_upper (s : String) :
    ∀ c ∈ (pyLower s).toList, c.isUpper = false := by
  intro c hc
  have : (pyLower s).toList = s.toList.map Char.toLower := rfl
  rw [this] at hc
  rw [List.mem_map] at hc
  obtain ⟨d, _, hd⟩ := hc
  rw [← hd]
  exact toLower_not_upper d

theorem processItem_names {st : List VFolder} {i : VFolderItem} :
    ∀ v ∈ processItem st i, v.name ∈ st.map VFolder.name ∨
      v.name = pyLower i.name := by
  intro v hv
  unfold processItem at hv
  dsimp only at hv
  cases hfind : st.find? (fun w =>
      w.name == pyLower i.name && w.location == i.location) with
  | none =>
    rw [hfind] at hv
    rcases List.mem_append.1 hv with h | h
    · exact Or.inl (List.mem_map_of_mem _ h)
    · rcases List.mem_singleton.1 h with rfl
      exact Or.inr rfl
  | some v0 =>
    rw [hfind] at hv
    rw [List.mem_map] at hv
    obtain ⟨w, hw, hwv⟩ := hv
    by_cases hc : (w.name == pyLower i.name && w.location == i.location) = true
    · rw [if_pos hc] at hwv
      have h0 := List.mem_of_find?_eq_some hfind
      left
      rw [← hwv]
      exact List.mem_map.2 ⟨v0, h0, rfl⟩
    · rw [if_neg hc] at hwv
      rw [← hwv]
      exact Or.inl (List.mem_map_of_mem _ hw)

theorem find?_append_of_none {α : Type} (p : α → Bool) {l1 : List α}
    (l2 : List α) (h : l1.find? p = none) :
    (l1 ++ l2).find? p = l2.find? p := by
  rw [List.find?_append, h, Option.none_or]

/-- C10: `add_vfolders` lowercases every input name, so no created folder
carries an upper-case letter (every folder name in the final store either
was already present or is free of upper-case letters); and two input items
whose names agree up to case and that share a location address the same
folder — processing both against a store without that folder adds exactly
one folder, created by the first item and then updated in place with the
second item's fields. -/
theorem add_vfolders_claim (items : List VFolderItem) (st : List VFolder)
    (i1 i2 : VFolderItem) :
    (∀ v ∈ add_vfolders items st, v.name ∈ st.map VFolder.name ∨
      ∀ c ∈ v.name.toList, c.isUpper = false) ∧
    (pyLower i1.name = pyLower i2.name → i1.location = i2.location →
      st.find? (fun v =>
        v.name == pyLower i1.name && v.location == i1.location) = none →
      add_vfolders [i1, i2] st =
        st ++ [⟨pyLower i2.name, i2.location, filterRulesOf i2,
          i2.priority.getD (i1.priority.getD 1),
          i2.is_browsable.getD (i1.is_browsable.getD true),
          i2.description.getD (i1.description.getD "")⟩]) := by
  constructor
  · induction items generalizing st with
    | nil =>
      intro v hv
      exact Or.inl (List.mem_map_of_mem _ hv)
    | cons i is ih =>
      intro v hv
      rcases ih (processItem st i) v hv with hmem | hlow
      · rw [List.mem_map] at hmem
        obtain ⟨w, hw, hwname⟩ := hmem
        rcases processItem_names w hw with h | h
        · exact Or.inl (hwname ▸ h)
        · right
          rw [← hwname, h]
          exact pyLower_no_upper _
      · exact Or.inr hlow
  · intro hname hloc hnone
    have step1 : processItem st i1 =
        st ++ [vfolderOfItem (pyLower i1.name) i1.location
          (filterRulesOf i1) i1] := by
      unfold processItem
      dsimp only
      rw [hnone]
    show processItem (processItem st i1) i2 = _
    rw [step1]
    unfold processItem
    dsimp only
    have hpred : ∀ v : VFolder,
        (v.name == pyLower i2.name && v.location == i2.location) =
        (v.name == pyLower i1.name && v.location == i1.location) := by
      intro v
      rw [hname, hloc]
    have hnf : ((vfolderOfItem (pyLower i1.name) i1.location
        (filterRulesOf i1) i1).name == pyLower i2.name &&
        (vfolderOfItem (pyLower i1.name) i1.location
          (filterRulesOf i1) i1).location == i2.location) = true := by
      unfold vfolderOfItem
      rw [hname, hloc] at *
      simp
    have hfind2 : (st ++ [vfolderOfItem (pyLower i1.name) i1.location
        (filterRulesOf i1) i1]).find? (fun v =>
          v.name == pyLower i2.name && v.location == i2.location) =
        some (vfolderOfItem (pyLower i1.name) i1.location
          (filterRulesOf i1) i1) := by
      rw [find?_append_of_none]
      · rw [List.find?_cons, hnf]
      · rw [List.find?_eq_none] at hnone ⊢
        intro x hx
        rw [hpred x]
        exact hnone x hx
    rw [hfind2]
    dsimp only
    rw [List.map_append]
    congr 1
    · conv_rhs => rw [← List.map_id st]
      apply List.map_congr_left
      intro w hw
      rw [List.find?_eq_none] at hnone
      have hnw := hnone w hw
      rw [hpred w, if_neg hnw]
      rfl
    · rw [List.map_cons, List.map_nil, if_pos hnf]
      simp only [vfolderOfItem]
      rw [hname, hloc]

/-- Concrete instantiation of the C1 theorem on a four-element id list. -/
theorem get_units_window_claim_witness :
    (get_units_window [10, 20, 30, 40] [30] 1 =
      Except.ok (pySlice [10, 20, 30, 40] (2 - 1) (min (2 + 1 + 1) 4)) ∧
    30 ∈ pySlice [10, 20, 30, 40] (2 - 1) (min (2 + 1 + 1) 4) ∧
    (pySlice [10, 20, 30, 40] (2 - 1) (min (2 + 1 + 1) 4)).length ≤
      2 * 1 + 1) ∧
    get_units_window [10, 20, 30, 40] [99] 1 =
      Except.error HttpError.http404 ∧
    get_units_window [10, 20, 30, 40] [] 1 =
      Except.ok ([10, 20, 30, 40].take (2 * 1)) := by
  refine ⟨?_, ?_, ?_⟩
  · exact (get_units_window_claim [10, 20, 30, 40] [30] 1).1 30 2 rfl
      (by decide)
  · exact (get_units_window_claim [10, 20, 30, 40] [99] 1).2.1 99 rfl
      (by decide)
  · exact (get_units_window_claim [10, 20, 30, 40] [] 1).2.2 (by decide)

/-- Concrete instantiation of the C3 theorem: the priority of a unit with
no virtual folders and of one with folder priorities 5 and 3. -/
theorem get_step_query_priority_sort_witness :
    unitPriority sampleUnit = 1 ∧
    5 ≤ unitPriority sampleUnitVf ∧
    unitPriority sampleUnitVf ∈ sampleUnitVf.vfolder_priorities := by
  obtain ⟨-, -, h3, h4, h5⟩ := get_step_query_priority_sort sampleExt []
  exact ⟨h3 sampleUnit rfl, h4 sampleUnitVf 5 (by decide),
    h5 sampleUnitVf (by decide)⟩

/-- Concrete instantiation of the C5 theorem: membership is preserved for
an `all` filter, and a bogus filter empties a one-unit collection. -/
theorem get_step_query_narrows_witness :
    sampleUnit ∈ [sampleUnit] ∧
    get_step_query sampleExt
      ⟨some "bogus", none, none, none, none, none, none, none⟩
      [sampleUnit] = [] := by
  constructor
  · exact (get_step_query_narrows sampleExt
      ⟨some "all", none, none, none, none, none, none, none⟩ [sampleUnit]).1
      sampleUnit (by decide)
  · exact (get_step_query_narrows sampleExt
      ⟨some "bogus", none, none, none, none, none, none, none⟩
      [sampleUnit]).2 "bogus" rfl (by decide) (by decide)

/-- Concrete instantiation of the C10 theorem on two items whose names
agree up to case. -/
theorem add_vfolders_claim_witness :
    (vfNews.name ∈ ([] : List VFolder).map VFolder.name ∨
      ∀ c ∈ vfNews.name.toList, c.isUpper = false) ∧
    add_vfolders [itemNews1, itemNews2] [] = [vfNews] := by
  obtain ⟨h1, h2⟩ :=
    add_vfolders_claim [itemNews1, itemNews2] [] itemNews1 itemNews2
  have hB := h2 (by decide) rfl rfl
  constructor
  · apply h1 vfNews
    rw [hB]
    decide
  · rw [hB]
    decide

end Pootle
